import Mathlib

/-!
Verification of the RitiBackend event-registration backend.

The repository contains three near-duplicate Express/Mongoose servers:
`src/unnamed/part_000` holds two variants (lines 1-230, called variant A
below, and lines 232-370, variant B) and `src/server.js` holds a third
(variant C).  The definitions below are shallow embeddings of the handlers
and schema logic of those variants; machine-level concerns (HTTP transport,
MongoDB wire protocol) are modelled as pure state passing over a list of
persisted registration records.
-/

/-- A JavaScript/JSON value, as produced by `JSON.parse`.  Numbers are kept
as their source lexeme (a string) since no claim depends on numeric
arithmetic, only on which texts parse and on zero-ness for truthiness. -/
inductive JsValue where
  | str (s : String)
  | num (lexeme : String)
  | bool (b : Bool)
  | null
  | arr (elems : List JsValue)
  | obj (fields : List (String × JsValue))

/-- JSON insignificant whitespace (RFC 8259): space, tab, line feed,
carriage return. -/
def isJsonWs (c : Char) : Bool :=
  c = ' ' || c = '\t' || c = '\n' || c = '\r'

/-- Drop leading JSON whitespace. -/
def skipWs : List Char → List Char
  | [] => []
  | c :: r => if isJsonWs c then skipWs r else c :: r

/-- Value of a hexadecimal digit character, if it is one. -/
def hexVal (c : Char) : Option Nat :=
  let n := c.toNat
  if 48 ≤ n ∧ n ≤ 57 then some (n - 48)
  else if 97 ≤ n ∧ n ≤ 102 then some (n - 87)
  else if 65 ≤ n ∧ n ≤ 70 then some (n - 55)
  else none

/-- Prepend a decoded character to a string-body parse result. -/
def consFst (ch : Char) (x : Option (List Char × List Char)) :
    Option (List Char × List Char) :=
  x.map fun p => (ch :: p.1, p.2)

/-- Parse the body of a JSON string after the opening quote, returning the
decoded characters and the input after the closing quote.  Mirrors the
JSON string grammar accepted by `JSON.parse`: escape sequences are decoded
and unescaped control characters are rejected. -/
def parseStrBody : List Char → Option (List Char × List Char)
  | [] => none
  | c :: r =>
    if c = '"' then some ([], r)
    else if c = '\\' then
      match r with
      | [] => none
      | e :: r2 =>
        if e = '"' then consFst '"' (parseStrBody r2)
        else if e = '\\' then consFst '\\' (parseStrBody r2)
        else if e = '/' then consFst '/' (parseStrBody r2)
        else if e = 'b' then consFst (Char.ofNat 8) (parseStrBody r2)
        else if e = 'f' then consFst (Char.ofNat 12) (parseStrBody r2)
        else if e = 'n' then consFst (Char.ofNat 10) (parseStrBody r2)
        else if e = 'r' then consFst (Char.ofNat 13) (parseStrBody r2)
        else if e = 't' then consFst (Char.ofNat 9) (parseStrBody r2)
        else if e = 'u' then
          match r2 with
          | h1 :: h2 :: h3 :: h4 :: r3 =>
            match hexVal h1, hexVal h2, hexVal h3, hexVal h4 with
            | some a, some b, some c2, some d =>
              consFst (Char.ofNat (4096 * a + 256 * b + 16 * c2 + d)) (parseStrBody r3)
            | _, _, _, _ => none
          | _ => none
        else none
    else if c.toNat < 32 then none
    else consFst c (parseStrBody r)

/-- Longest prefix of decimal digits. -/
def spanDigits : List Char → List Char × List Char
  | [] => ([], [])
  | c :: r =>
    if c.isDigit then
      let p := spanDigits r
      (c :: p.1, p.2)
    else ([], c :: r)

/-- Integer part of a JSON number: a single `0` or a nonzero digit followed
by further digits. -/
def parseIntPart : List Char → Option (List Char × List Char)
  | [] => none
  | c :: r =>
    if c = '0' then some ([c], r)
    else if c.isDigit then
      let p := spanDigits r
      some (c :: p.1, p.2)
    else none

/-- Optional fractional part of a JSON number; a dot must be followed by at
least one digit. -/
def parseFracPart : List Char → Option (List Char × List Char)
  | '.' :: r =>
    match spanDigits r with
    | ([], _) => none
    | (ds, rest) => some ('.' :: ds, rest)
  | cs => some ([], cs)

/-- Optional exponent part of a JSON number. -/
def parseExpPart : List Char → Option (List Char × List Char)
  | [] => some ([], [])
  | c :: r =>
    if c = 'e' || c = 'E' then
      match r with
      | [] => none
      | s :: r2 =>
        if s = '+' || s = '-' then
          match spanDigits r2 with
          | ([], _) => none
          | (ds, rest) => some (c :: s :: ds, rest)
        else
          match spanDigits (s :: r2) with
          | ([], _) => none
          | (ds, rest) => some (c :: ds, rest)
    else some ([], c :: r)

/-- Parse a JSON number, returning its lexeme. -/
def parseNumber (cs : List Char) : Option (String × List Char) :=
  let sp : List Char × List Char :=
    match cs with
    | '-' :: r => (['-'], r)
    | _ => ([], cs)
  match parseIntPart sp.2 with
  | none => none
  | some (ip, cs2) =>
    match parseFracPart cs2 with
    | none => none
    | some (fp, cs3) =>
      match parseExpPart cs3 with
      | none => none
      | some (ep, cs4) => some (String.mk (sp.1 ++ ip ++ fp ++ ep), cs4)

mutual

/-- Recursive-descent JSON value parser, the model of `JSON.parse`.  The
fuel argument only bounds the recursion; each call either consumes input or
hands over to the element/member loop, so `2 * length + 2` fuel (as used by
`jsonParse`) always suffices. -/
def parseValueF : Nat → List Char → Option (JsValue × List Char)
  | 0, _ => none
  | fuel + 1, cs =>
    match skipWs cs with
    | [] => none
    | c :: r =>
      if c = '"' then (parseStrBody r).map (fun p => (JsValue.str (String.mk p.1), p.2))
      else if c = '[' then
        match skipWs r with
        | ']' :: r2 => some (JsValue.arr [], r2)
        | cs2 => (parseItemsF fuel cs2).map (fun p => (JsValue.arr p.1, p.2))
      else if c = '{' then
        match skipWs r with
        | '}' :: r2 => some (JsValue.obj [], r2)
        | cs2 => (parseMembersF fuel cs2).map (fun p => (JsValue.obj p.1, p.2))
      else if c = 't' then
        match r with
        | 'r' :: 'u' :: 'e' :: r2 => some (JsValue.bool true, r2)
        | _ => none
      else if c = 'f' then
        match r with
        | 'a' :: 'l' :: 's' :: 'e' :: r2 => some (JsValue.bool false, r2)
        | _ => none
      else if c = 'n' then
        match r with
        | 'u' :: 'l' :: 'l' :: r2 => some (JsValue.null, r2)
        | _ => none
      else (parseNumber (c :: r)).map (fun p => (JsValue.num p.1, p.2))

/-- Comma-separated array elements up to the closing bracket. -/
def parseItemsF : Nat → List Char → Option (List JsValue × List Char)
  | 0, _ => none
  | fuel + 1, cs =>
    match parseValueF fuel cs with
    | none => none
    | some (v, r) =>
      match skipWs r with
      | ']' :: r2 => some ([v], r2)
      | ',' :: r2 => (parseItemsF fuel r2).map (fun p => (v :: p.1, p.2))
      | _ => none

/-- Comma-separated object members up to the closing brace. -/
def parseMembersF : Nat → List Char → Option (List (String × JsValue) × List Char)
  | 0, _ => none
  | fuel + 1, cs =>
    match skipWs cs with
    | '"' :: r =>
      match parseStrBody r with
      | none => none
      | some (k, r2) =>
        match skipWs r2 with
        | ':' :: r3 =>
          match parseValueF fuel r3 with
          | none => none
          | some (v, r4) =>
            match skipWs r4 with
            | '}' :: r5 => some ([(String.mk k, v)], r5)
            | ',' :: r5 => (parseMembersF fuel r5).map (fun p => ((String.mk k, v) :: p.1, p.2))
            | _ => none
        | _ => none
    | _ => none

end

/-- Model of `JSON.parse`: parse one value and require only whitespace to
remain. -/
def jsonParse (s : String) : Option JsValue :=
  match parseValueF (2 * s.data.length + 2) s.data with
  | some (v, rest) =>
    match skipWs rest with
    | [] => some v
    | _ => none
  | none => none

/-- Lower-case hexadecimal digit character. -/
def hexDigitChar (n : Nat) : Char :=
  Char.ofNat (if n < 10 then n + 48 else n + 87)

/-- The escape `JSON.stringify` applies to one character of a string. -/
def escChar (c : Char) : List Char :=
  if c = '"' then ['\\', '"']
  else if c = '\\' then ['\\', '\\']
  else if c = Char.ofNat 8 then ['\\', 'b']
  else if c = Char.ofNat 9 then ['\\', 't']
  else if c = Char.ofNat 10 then ['\\', 'n']
  else if c = Char.ofNat 12 then ['\\', 'f']
  else if c = Char.ofNat 13 then ['\\', 'r']
  else if c.toNat < 32 then
    let hi := hexDigitChar (c.toNat / 16)
    let lo := hexDigitChar (c.toNat % 16)
    '\\' :: 'u' :: '0' :: '0' :: hi :: [lo]
  else [c]

/-- Characters of the `JSON.stringify` encoding of a string, without the
surrounding quotes. -/
def encodeJsonStringChars (l : List Char) : List Char := l.flatMap escChar

/-- Body of the `JSON.stringify` encoding of an array of strings (between
the brackets): quoted elements separated by commas, no whitespace. -/
def encodeArrBody : List String → List Char
  | [] => []
  | [s] => '"' :: encodeJsonStringChars s.data ++ ['"']
  | s :: rest => '"' :: encodeJsonStringChars s.data ++ '"' :: ',' :: encodeArrBody rest

/-- Model of `JSON.stringify` on an array of strings. -/
def stringifyStringArray (l : List String) : String :=
  String.mk ('[' :: encodeArrBody l ++ [']'])

/-- One persisted registration record, mirroring the Mongoose
`registrationSchema`.  Identifiers and timestamps are abstracted as `Nat`;
`paymentMethod` is `none` for the schema default `null`. -/
structure Registration where
  id : Nat
  name : String
  email : String
  contact : String
  college : String
  course : String
  sem : String
  selectedEvents : List String
  idPhotoPath : Option String
  isPresent : Bool
  paymentMethod : Option String
  registrationDate : Nat
deriving DecidableEq, Repr

/-- The `checkAdminAuth` middleware of `src/unnamed/part_000` lines
121-128: the `admin-auth` header must literally equal the string `true`. -/
def checkAdminAuth (header : Option String) : Bool :=
  header = some "true"

/-- Model of Mongoose `findByIdAndUpdate(id, update, { new: true })`: the
updated record when one with the id exists (and the updated store), or
`null` (`none`) with the store untouched. -/
def findByIdAndUpdate (store : List Registration) (targetId : Nat)
    (f : Registration → Registration) : Option Registration × List Registration :=
  match store.find? (fun r => r.id = targetId) with
  | none => (none, store)
  | some r => (some (f r), store.map (fun q => if q.id = targetId then f q else q))

/-- Response of the two admin mutation endpoints: an HTTP status and the
JSON body, which is the updated record or `null`. -/
structure AdminUpdateResponse where
  status : Nat
  body : Option Registration
deriving DecidableEq, Repr

/-- Handler of `PUT /api/admin/attendance/:id` (`src/unnamed/part_000`
lines 169-180): after the auth check it calls `findByIdAndUpdate` setting
`isPresent` and sends whatever that returns, with no null check. -/
def putAttendance (header : Option String) (targetId : Nat) (present : Bool)
    (store : List Registration) : AdminUpdateResponse × List Registration :=
  if checkAdminAuth header then
    let u := findByIdAndUpdate store targetId (fun r => { r with isPresent := present })
    ({ status := 200, body := u.1 }, u.2)
  else ({ status := 401, body := none }, store)

/-- A `paymentMethod` taken from the request body: `none` when the key is
absent (`undefined`), `some none` for JSON `null`, `some (some s)` for a
string. -/
def validPaymentMethod : Option (Option String) → Bool
  | some none => true
  | some (some s) => s = "cash" || s = "online"
  | none => false

/-- Handler of `PUT /api/admin/payment/:id` (`src/unnamed/part_000` lines
183-199): auth check, then the enumeration check
`['cash','online',null].includes(paymentMethod)` before any storage
access, then `findByIdAndUpdate` with no null check on its result. -/
def putPayment (header : Option String) (targetId : Nat)
    (pm : Option (Option String)) (store : List Registration) :
    AdminUpdateResponse × List Registration :=
  if checkAdminAuth header then
    if validPaymentMethod pm then
      let u := findByIdAndUpdate store targetId
        (fun r => { r with paymentMethod := pm.getD none })
      ({ status := 200, body := u.1 }, u.2)
    else ({ status := 400, body := none }, store)
  else ({ status := 401, body := none }, store)

/-- Insert a record into a list kept sorted by `registrationDate`
descending. -/
def insertByDateDesc (r : Registration) : List Registration → List Registration
  | [] => [r]
  | q :: rest =>
    if q.registrationDate ≤ r.registrationDate then r :: q :: rest
    else q :: insertByDateDesc r rest

/-- Sort records by `registrationDate` descending, the order of
`Registration.find().sort({ registrationDate: -1 })`. -/
def sortByDateDesc : List Registration → List Registration
  | [] => []
  | r :: rest => insertByDateDesc r (sortByDateDesc rest)

/-- Response of `GET /api/admin/registrations`. -/
structure AdminListResponse where
  status : Nat
  body : Option (List Registration)
deriving DecidableEq, Repr

/-- Handler of `GET /api/admin/registrations` (`src/unnamed/part_000`
lines 160-167). -/
def getRegistrations (header : Option String) (store : List Registration) :
    AdminListResponse :=
  if checkAdminAuth header then
    { status := 200, body := some (sortByDateDesc store) }
  else { status := 401, body := none }

/-- Response of `GET /api/admin/events`. -/
structure AdminEventsResponse where
  status : Nat
  body : Option (List String)
deriving DecidableEq, Repr

/-- Modelled from the spec: no source file of this repository contains the
`GET /api/admin/events` handler (the spec lists the route and defines
`listDistinctEvents` as "flattening every registration's `selectedEvents`
and deduplicating (order not significant)"); this is that computation. -/
def listDistinctEvents (store : List Registration) : List String :=
  (store.flatMap (fun r => r.selectedEvents)).dedup

/-- Modelled from the spec: the `GET /api/admin/events` endpoint, gated by
the same admin header check as the other admin routes. -/
def getAdminEvents (header : Option String) (store : List Registration) :
    AdminEventsResponse :=
  if checkAdminAuth header then
    { status := 200, body := some (listDistinctEvents store) }
  else { status := 401, body := none }

/-- MIME types accepted by the multer `fileFilter` (`src/server.js` lines
45-52, `src/unnamed/part_000` lines 51-56). -/
def allowedMimeTypes : List String := ["image/jpeg", "image/png", "image/jpg"]

/-- The multer `limits.fileSize` bound of 5 MB. -/
def maxFileSize : Nat := 5 * 1024 * 1024

/-- An uploaded file as multer presents it to the filter and limits. -/
structure UploadFile where
  mimetype : String
  size : Nat
deriving DecidableEq, Repr

/-- Failure modes of file intake. -/
inductive FileError where
  | invalidType
  | tooLarge
deriving DecidableEq, Repr

/-- File intake: multer consults `fileFilter` on the file's headers first
and only afterwards enforces the size limit while streaming the body. -/
def acceptFile (f : UploadFile) : Except FileError Unit :=
  if !(allowedMimeTypes.contains f.mimetype) then .error .invalidType
  else if maxFileSize < f.size then .error .tooLarge
  else .ok ()

/-- The whitespace class of the JavaScript regexes and of
`String.prototype.trim` (the common members; exotic Unicode space
characters are omitted, no claim exercises them). -/
def jsWhitespace (c : Char) : Bool :=
  c = ' ' || c = '\t' || c = '\n' || c = '\r' ||
  c = Char.ofNat 11 || c = Char.ofNat 12 || c = Char.ofNat 160 || c = Char.ofNat 65279

/-- Model of `String.prototype.trim` / the Mongoose `trim: true` setter. -/
def jsTrim (s : String) : String :=
  String.mk (((s.data.dropWhile jsWhitespace).reverse.dropWhile jsWhitespace).reverse)

/-- Model of `String.prototype.toLowerCase` / the Mongoose
`lowercase: true` setter, on the ASCII range. -/
def jsLower (s : String) : String :=
  String.mk (s.data.map Char.toLower)

/-- Split a character list at every occurrence of a separator. -/
def splitOnChar (sep : Char) : List Char → List (List Char)
  | [] => [[]]
  | c :: r =>
    match splitOnChar sep r with
    | [] => if c = sep then [[], []] else [[c]]
    | p :: ps => if c = sep then [] :: p :: ps else (c :: p) :: ps

/-- A character allowed by the `[^\s@]` class of the email regex. -/
def emailAtomChar (c : Char) : Bool :=
  !(jsWhitespace c) && c != '@'

/-- The domain part `[^\s@]+\.[^\s@]+` of the email regex: non-empty, no
whitespace or `@`, and some dot has a non-empty run on both sides. -/
def emailDomainOk (d : List Char) : Bool :=
  d.all emailAtomChar &&
  (List.range d.length).any (fun i => decide (0 < i) && decide (i + 1 < d.length) && d.getD i ' ' = '.')

/-- Model of the schema email test `/^[^\s@]+@[^\s@]+\.[^\s@]+$/.test(v)`
(`src/server.js` lines 106-111, `src/unnamed/part_000` lines 84-87). -/
def emailRegexTest (s : String) : Bool :=
  match splitOnChar '@' s.data with
  | [lpart, dpart] => !lpart.isEmpty && lpart.all emailAtomChar && emailDomainOk dpart
  | _ => false

/-- Model of the schema contact test `/^[6-9]\d{9}$/.test(v)`
(`src/server.js` lines 116-121, `src/unnamed/part_000` lines 92-95). -/
def contactRegexTest (s : String) : Bool :=
  match s.data with
  | c :: rest => ('6' ≤ c && c ≤ '9') && rest.length = 9 && rest.all Char.isDigit
  | [] => false

/-- A request body for `POST /api/register`.  Scalar fields model
`req.body` keys that are either absent (`none`) or a string; the extra
`isPresent` and `paymentMethod` keys are only read by the
`src/unnamed/part_000` variant, whose handler spreads `...req.body` into
the new document. -/
structure RegisterBody where
  name : Option String
  email : Option String
  contact : Option String
  college : Option String
  course : Option String
  sem : Option String
  selectedEvents : Option JsValue
  isPresent : Option Bool
  paymentMethod : Option (Option String)

/-- Dynamic field lookup `req.body[field]` over the scalar fields. -/
def bodyGet (b : RegisterBody) : String → Option String
  | "name" => b.name
  | "email" => b.email
  | "contact" => b.contact
  | "college" => b.college
  | "course" => b.course
  | "sem" => b.sem
  | _ => none

/-- The `requiredFields` list of `src/server.js` line 178. -/
def requiredFields : List String :=
  ["name", "email", "contact", "college", "course", "sem"]

/-- JavaScript falsiness of an optional string: absent (`undefined`) or
the empty string. -/
def strFalsy : Option String → Bool
  | none => true
  | some s => s = ""

/-- Whether a JSON number lexeme denotes zero: every mantissa digit is 0. -/
def numLexZero (lex : String) : Bool :=
  (lex.data.takeWhile (fun c => c != 'e' && c != 'E')).all (fun c => !c.isDigit || c = '0')

/-- JavaScript falsiness of the (possibly absent) `selectedEvents` value:
`undefined`, `null`, `false`, the empty string and `0` are falsy; arrays
and objects are always truthy. -/
def jsFalsyValue : Option JsValue → Bool
  | none => true
  | some JsValue.null => true
  | some (JsValue.bool b) => !b
  | some (JsValue.str s) => s = ""
  | some (JsValue.num lex) => numLexZero lex
  | some (JsValue.arr _) => false
  | some (JsValue.obj _) => false

/-- The test `x.length === 0` on a JavaScript value: zero for an empty
array or string (or an object carrying a zero `length` member); `undefined`
(hence not `=== 0`) for numbers, booleans and other objects. -/
def jsLengthZero : Option JsValue → Bool
  | some (JsValue.arr xs) => xs.isEmpty
  | some (JsValue.str s) => s.isEmpty
  | some (JsValue.obj fs) =>
    match fs.lookup "length" with
    | some (JsValue.num lex) => numLexZero lex
    | _ => false
  | _ => false

/-- The normalization step shared by the register handlers
(`src/server.js` lines 168-175, `src/unnamed/part_000` lines 133-140):
when `selectedEvents` arrives as a string, try `JSON.parse`; if parsing
throws, fall back to the one-element array containing the raw string.
Non-string values pass through untouched. -/
def normalizeSelectedEvents : Option JsValue → Option JsValue
  | some (JsValue.str s) =>
    some (match jsonParse s with
          | some w => w
          | none => JsValue.arr [JsValue.str s])
  | v => v

/-- Mongoose cast of one array element to the `String` path: strings stay,
numbers and booleans stringify, anything else is a cast error. -/
def castToStringElem : JsValue → Option String
  | JsValue.str s => some s
  | JsValue.num lex => some lex
  | JsValue.bool b => some (if b then "true" else "false")
  | _ => none

/-- Mongoose cast of the `selectedEvents` value to the `[String]` path:
arrays cast elementwise, a primitive is wrapped into a one-element array,
`null` and objects are cast errors. -/
def castEventsToList : JsValue → Option (List String)
  | JsValue.arr xs => xs.mapM castToStringElem
  | JsValue.null => none
  | JsValue.obj _ => none
  | v => (castToStringElem v).map (fun s => [s])

/-- Outcome of `POST /api/register` in the `src/server.js` variant. -/
inductive RegResponse where
  | created (regId : Nat)
  | missingFields (fields : List String)
  | noEvent
  | duplicateEmail
  | validationFailed
deriving DecidableEq, Repr

/-- HTTP status the `src/server.js` handler sends for each outcome
(`201`, `400`, `409`). -/
def registerStatusC : RegResponse → Nat
  | RegResponse.created _ => 201
  | RegResponse.missingFields _ => 400
  | RegResponse.noEvent => 400
  | RegResponse.duplicateEmail => 409
  | RegResponse.validationFailed => 400

/-- The document `new Registration({...})` builds in the `src/server.js`
variant (lines 193-202): the six scalar fields are picked explicitly (with
the schema's `trim`/`lowercase` setters applied), the normalized
`selectedEvents` is cast to `[String]`, and `isPresent` keeps its schema
default `false`; this schema has no `paymentMethod` path at all, so the
record's `paymentMethod` is always absent. -/
def docOfC (b : RegisterBody) (file : Option String) (events : Option JsValue)
    (newId now : Nat) : Option Registration :=
  match events with
  | none => none
  | some ev =>
    (castEventsToList ev).map (fun evs =>
      { id := newId
        name := jsTrim (b.name.getD "")
        email := jsLower (jsTrim (b.email.getD ""))
        contact := b.contact.getD ""
        college := jsTrim (b.college.getD "")
        course := jsTrim (b.course.getD "")
        sem := jsTrim (b.sem.getD "")
        selectedEvents := evs
        idPhotoPath := file
        isPresent := false
        paymentMethod := none
        registrationDate := now })

/-- Mongoose document validation for the `src/server.js` schema: `required`
(non-empty after the setters), the email and contact regexes, and the
non-empty `selectedEvents` validator. -/
def validateC (r : Registration) : Bool :=
  r.name != "" && r.email != "" && emailRegexTest r.email &&
  r.contact != "" && contactRegexTest r.contact &&
  r.college != "" && r.course != "" && r.sem != "" &&
  decide (0 < r.selectedEvents.length)

/-- Handler of `POST /api/register` in `src/server.js` (lines 165-255):
normalize `selectedEvents`, reject falsy required fields naming them,
reject an empty event selection, then save: Mongoose validation failures
map to 400, a duplicate email (the unique index) to 409, success appends
the record and returns 201. -/
def registerC (b : RegisterBody) (file : Option String) (newId now : Nat)
    (store : List Registration) : RegResponse × List Registration :=
  let ev := normalizeSelectedEvents b.selectedEvents
  let missing := requiredFields.filter (fun f => strFalsy (bodyGet b f))
  if !missing.isEmpty then (RegResponse.missingFields missing, store)
  else if jsFalsyValue ev || jsLengthZero ev then (RegResponse.noEvent, store)
  else
    match docOfC b file ev newId now with
    | none => (RegResponse.validationFailed, store)
    | some r =>
      if !validateC r then (RegResponse.validationFailed, store)
      else if store.any (fun q => q.email = r.email) then (RegResponse.duplicateEmail, store)
      else (RegResponse.created newId, store ++ [r])

/-- Outcome of `POST /api/register` in the `src/unnamed/part_000` variant
(lines 131-157): only the success path sends a response; its catch block is
empty, so every failure is collapsed into one abstract failed outcome. -/
inductive RegResponseA where
  | created (regId : Nat)
  | failed
deriving DecidableEq, Repr

/-- The document built by the `src/unnamed/part_000` variant (lines
142-146): `new Registration({ ...req.body, selectedEvents, idPhotoPath })`
spreads the whole request body, so a submitted `isPresent` or
`paymentMethod` overrides the schema defaults.  This schema only trims
`name`; `email` has no `trim`/`lowercase` setter. -/
def docOfA (b : RegisterBody) (file : Option String) (events : Option JsValue)
    (newId now : Nat) : Option Registration :=
  match events with
  | none => none
  | some ev =>
    (castEventsToList ev).map (fun evs =>
      { id := newId
        name := jsTrim (b.name.getD "")
        email := b.email.getD ""
        contact := b.contact.getD ""
        college := b.college.getD ""
        course := b.course.getD ""
        sem := b.sem.getD ""
        selectedEvents := evs
        idPhotoPath := file
        isPresent := b.isPresent.getD false
        paymentMethod := (b.paymentMethod.getD none)
        registrationDate := now })

/-- Mongoose validation for the `src/unnamed/part_000` schema (lines
78-116): `required`, both regexes, the non-empty events validator and the
`enum: ['cash', 'online', null]` constraint on `paymentMethod`. -/
def validateA (r : Registration) : Bool :=
  r.name != "" && r.email != "" && emailRegexTest r.email &&
  r.contact != "" && contactRegexTest r.contact &&
  r.college != "" && r.course != "" && r.sem != "" &&
  decide (0 < r.selectedEvents.length) &&
  (r.paymentMethod = none || r.paymentMethod = some "cash" || r.paymentMethod = some "online")

/-- Handler of `POST /api/register` in `src/unnamed/part_000` (lines
131-157): normalize `selectedEvents`, build the document from the spread
body and save; there is no handler-level field check. -/
def registerA (b : RegisterBody) (file : Option String) (newId now : Nat)
    (store : List Registration) : RegResponseA × List Registration :=
  let ev := normalizeSelectedEvents b.selectedEvents
  match docOfA b file ev newId now with
  | none => (RegResponseA.failed, store)
  | some r =>
    if !validateA r then (RegResponseA.failed, store)
    else if store.any (fun q => q.email = r.email) then (RegResponseA.failed, store)
    else (RegResponseA.created newId, store ++ [r])

/-- A registration already persisted in the example stores. -/
def reg0 : Registration :=
  { id := 1
    name := "Asha"
    email := "a@b.com"
    contact := "9123456780"
    college := "C"
    course := "B"
    sem := "2"
    selectedEvents := ["dance"]
    idPhotoPath := none
    isPresent := false
    paymentMethod := none
    registrationDate := 0 }

/-- A fully valid submission whose email duplicates `reg0`. -/
def bodyDup : RegisterBody :=
  { name := some "Riti"
    email := some "a@b.com"
    contact := some "9876543210"
    college := some "X"
    course := some "Y"
    sem := some "1"
    selectedEvents := some (JsValue.arr [JsValue.str "quiz"])
    isPresent := none
    paymentMethod := none }

/-- Like `bodyDup` but with `name` supplied as the empty string. -/
def bodyDupNoName : RegisterBody :=
  { bodyDup with name := some "" }

/-- The record `registerC` would persist for `bodyDup`. -/
def regDup : Registration :=
  { id := 2
    name := "Riti"
    email := "a@b.com"
    contact := "9876543210"
    college := "X"
    course := "Y"
    sem := "1"
    selectedEvents := ["quiz"]
    idPhotoPath := none
    isPresent := false
    paymentMethod := none
    registrationDate := 5 }

/-- A fully valid submission with a fresh email. -/
def goodBody : RegisterBody :=
  { bodyDup with email := some "b@c.org" }

/-- The record `registerC` persists for `goodBody` into an empty store. -/
def regGood : Registration :=
  { id := 1
    name := "Riti"
    email := "b@c.org"
    contact := "9876543210"
    college := "X"
    course := "Y"
    sem := "1"
    selectedEvents := ["quiz"]
    idPhotoPath := none
    isPresent := false
    paymentMethod := none
    registrationDate := 0 }

/-- A valid submission that also carries `isPresent: true` in its body, as
any client may. -/
def bodyMassAssign : RegisterBody :=
  { goodBody with isPresent := some true }

theorem hexVal_hexDigitChar (n : Nat) (h : n < 16) : hexVal (hexDigitChar n) = some n := by
  interval_cases n <;> rfl

theorem parseStrBody_escChar (c : Char) (rest : List Char) :
    parseStrBody (escChar c ++ rest) = consFst c (parseStrBody rest) := by
  by_cases h1 : c = '"'
  · subst h1; rw [parseStrBody.eq_def]; simp [escChar]
  by_cases h2 : c = '\\'
  · subst h2; rw [parseStrBody.eq_def]; simp [escChar]
  by_cases h3 : c = Char.ofNat 8
  · subst h3; rw [parseStrBody.eq_def]; simp [escChar]
  by_cases h4 : c = Char.ofNat 9
  · subst h4; rw [parseStrBody.eq_def]; simp [escChar]
  by_cases h5 : c = Char.ofNat 10
  · subst h5; rw [parseStrBody.eq_def]; simp [escChar]
  by_cases h6 : c = Char.ofNat 12
  · subst h6; rw [parseStrBody.eq_def]; simp [escChar]
  by_cases h7 : c = Char.ofNat 13
  · subst h7; rw [parseStrBody.eq_def]; simp [escChar]
  by_cases h8 : c.toNat < 32
  · have hd1 : c.toNat / 16 < 16 := by omega
    have hd2 : c.toNat % 16 < 16 := by omega
    simp only [escChar, h1, h2, h3, h4, h5, h6, h7, if_neg, if_pos h8, ite_false,
      not_false_iff, ite_true, List.cons_append, List.nil_append]
    rw [parseStrBody.eq_def]
    simp [hexVal_hexDigitChar _ hd1, hexVal_hexDigitChar _ hd2,
      show hexVal '0' = some 0 from rfl]
    have harith : 16 * (c.toNat / 16) + c.toNat % 16 = c.toNat := by omega
    rw [harith, Char.ofNat_toNat]
  · simp only [escChar, h1, h2, h3, h4, h5, h6, h7, h8, if_neg, ite_false, not_false_iff,
      List.cons_append, List.nil_append]
    rw [parseStrBody.eq_def]
    simp [h1, h2, h8]

theorem parseStrBody_encode (l : List Char) (rest : List Char) :
    parseStrBody (encodeJsonStringChars l ++ '"' :: rest) = some (l, rest) := by
  induction l with
  | nil =>
    rw [show encodeJsonStringChars [] = [] from rfl, List.nil_append, parseStrBody.eq_def]
    simp
  | cons c l ih =>
    rw [show encodeJsonStringChars (c :: l) = escChar c ++ encodeJsonStringChars l from rfl,
      List.append_assoc, parseStrBody_escChar, ih]
    rfl

theorem skipWs_not_ws (c : Char) (r : List Char) (h : isJsonWs c = false) :
    skipWs (c :: r) = c :: r := by
  rw [skipWs.eq_def]
  simp [h]

theorem parseValueF_str (fuel : Nat) (s : String) (rest : List Char) :
    parseValueF (fuel + 1) ('"' :: (encodeJsonStringChars s.data ++ '"' :: rest)) =
      some (JsValue.str s, rest) := by
  simp only [parseValueF.eq_def]
  rw [skipWs_not_ws '"' _ (by rfl)]
  simp [parseStrBody_encode]

theorem parseItemsF_encode (l : List String) (fuel : Nat) (rest : List Char)
    (hfuel : l.length + 1 ≤ fuel) (hne : l ≠ []) :
    parseItemsF fuel (encodeArrBody l ++ ']' :: rest) = some (l.map JsValue.str, rest) := by
  induction l generalizing fuel rest with
  | nil => exact absurd rfl hne
  | cons s l ih =>
    obtain ⟨f, rfl⟩ : ∃ f, fuel = f + 1 := ⟨fuel - 1, by omega⟩
    cases l with
    | nil =>
      obtain ⟨g, rfl⟩ : ∃ g, f = g + 1 := ⟨f - 1, by simp at hfuel; omega⟩
      rw [show encodeArrBody [s] ++ ']' :: rest =
        '"' :: (encodeJsonStringChars s.data ++ '"' :: (']' :: rest)) by
          simp [encodeArrBody]]
      rw [parseItemsF.eq_def]
      dsimp only
      rw [parseValueF_str]
      dsimp only
      rw [skipWs_not_ws ']' _ (by rfl)]
      simp
    | cons s2 l2 =>
      obtain ⟨g, rfl⟩ : ∃ g, f = g + 1 := ⟨f - 1, by simp at hfuel; omega⟩
      rw [show encodeArrBody (s :: s2 :: l2) ++ ']' :: rest =
        '"' :: (encodeJsonStringChars s.data ++ '"' ::
          (',' :: (encodeArrBody (s2 :: l2) ++ ']' :: rest))) by
          simp [encodeArrBody]]
      rw [parseItemsF.eq_def]
      dsimp only
      rw [parseValueF_str]
      dsimp only
      rw [skipWs_not_ws ',' _ (by rfl)]
      have hrec := ih (g + 1) rest (by simp at hfuel ⊢; omega) (by simp)
      simp [hrec]

theorem encodeArrBody_length (l : List String) : l.length ≤ (encodeArrBody l).length := by
  induction l with
  | nil => simp [encodeArrBody]
  | cons s l ih =>
    cases l with
    | nil => simp [encodeArrBody]
    | cons s2 l2 =>
      rw [show encodeArrBody (s :: s2 :: l2) =
        '"' :: encodeJsonStringChars s.data ++ '"' :: ',' :: encodeArrBody (s2 :: l2) from rfl]
      simp at ih ⊢
      omega

theorem parseValueF_encodeArray (l : List String) (fuel : Nat) (rest : List Char)
    (hfuel : l.length + 2 ≤ fuel) :
    parseValueF fuel ('[' :: (encodeArrBody l ++ ']' :: rest)) =
      some (JsValue.arr (l.map JsValue.str), rest) := by
  obtain ⟨f, rfl⟩ : ∃ f, fuel = f + 1 := ⟨fuel - 1, by omega⟩
  rw [parseValueF.eq_def]
  dsimp only
  rw [skipWs_not_ws '[' _ (by rfl)]
  dsimp only
  cases l with
  | nil =>
    rw [show encodeArrBody [] ++ ']' :: rest = ']' :: rest from rfl]
    rw [skipWs_not_ws ']' _ (by rfl)]
    simp
  | cons s l2 =>
    obtain ⟨t, ht⟩ : ∃ t, encodeArrBody (s :: l2) ++ ']' :: rest = '"' :: t := by
      cases l2 with
      | nil =>
        exact ⟨encodeJsonStringChars s.data ++ '"' :: ']' :: rest, by simp [encodeArrBody]⟩
      | cons s2 l3 =>
        exact ⟨encodeJsonStringChars s.data ++ '"' ::
          ',' :: (encodeArrBody (s2 :: l3) ++ ']' :: rest), by simp [encodeArrBody]⟩
    rw [ht, skipWs_not_ws '"' _ (by rfl)]
    have hrec := parseItemsF_encode (s :: l2) f rest (by simp at hfuel ⊢; omega) (by simp)
    rw [ht] at hrec
    simp [hrec]

theorem jsonParse_stringify (l : List String) :
    jsonParse (stringifyStringArray l) = some (JsValue.arr (l.map JsValue.str)) := by
  have hlen := encodeArrBody_length l
  rw [jsonParse, stringifyStringArray]
  rw [show (String.mk ('[' :: encodeArrBody l ++ [']'])).data =
    '[' :: (encodeArrBody l ++ ']' :: []) from rfl]
  rw [parseValueF_encodeArray l _ [] (by simp; omega)]
  simp [skipWs]

/-- C5 (confirmed): supplying `selectedEvents` as the JSON-encoded string
of a list of event names normalizes to exactly the ordered list itself,
which is also what normalization yields (unchanged) when the list is
supplied natively; in particular element order is preserved. -/
theorem selectedEvents_string_roundtrip (l : List String) :
    normalizeSelectedEvents (some (JsValue.str (stringifyStringArray l))) =
      some (JsValue.arr (l.map JsValue.str)) ∧
    normalizeSelectedEvents (some (JsValue.arr (l.map JsValue.str))) =
      some (JsValue.arr (l.map JsValue.str)) := by
  constructor
  · dsimp only [normalizeSelectedEvents]
    rw [jsonParse_stringify]
  · rfl

/-- C6 (counterexample): the string `42` cannot be decoded as a list, yet
the normalization step does not fall back to the singleton `["42"]`: since
`JSON.parse` succeeds on it, the normalized result is the number 42. -/
theorem normalize_nonlist_counterexample :
    jsonParse "42" = some (JsValue.num "42") ∧
    normalizeSelectedEvents (some (JsValue.str "42")) = some (JsValue.num "42") ∧
    some (JsValue.num "42") ≠ some (JsValue.arr [JsValue.str "42"]) := by
  refine ⟨rfl, rfl, ?_⟩
  intro h
  simp at h

/-- C6 (corrected): the singleton fallback happens exactly when the string
fails to decode as JSON at all; when `JSON.parse` succeeds the normalized
result is the decoded JSON value, whether or not it is a list. -/
theorem normalize_fallback_amended (s : String) :
    (jsonParse s = none →
      normalizeSelectedEvents (some (JsValue.str s)) =
        some (JsValue.arr [JsValue.str s])) ∧
    (∀ v, jsonParse s = some v →
      normalizeSelectedEvents (some (JsValue.str s)) = some v) := by
  constructor
  · intro h
    dsimp only [normalizeSelectedEvents]
    rw [h]
  · intro v h
    dsimp only [normalizeSelectedEvents]
    rw [h]

/-- Witness for C6's amended claim at the undecodable string `hello`. -/
theorem normalize_fallback_amended_witness :
    normalizeSelectedEvents (some (JsValue.str "hello")) =
      some (JsValue.arr [JsValue.str "hello"]) :=
  (normalize_fallback_amended "hello").1 rfl

/-- C1 (counterexample): with the admin header set and an empty store, both
update endpoints answer an unknown id with HTTP 200 and a null body, not
the 404 the claim requires (the handlers never null-check
`findByIdAndUpdate`); the store is untouched. -/
theorem update_missing_id_counterexample :
    (putAttendance (some "true") 1 true []).1.status = 200 ∧
    (putAttendance (some "true") 1 true []).1.status ≠ 404 ∧
    (putAttendance (some "true") 1 true []).1.body = none ∧
    (putAttendance (some "true") 1 true []).2 = [] ∧
    (putPayment (some "true") 1 (some (some "cash")) []).1.status = 200 ∧
    (putPayment (some "true") 1 (some (some "cash")) []).1.status ≠ 404 ∧
    (putPayment (some "true") 1 (some (some "cash")) []).1.body = none ∧
    (putPayment (some "true") 1 (some (some "cash")) []).2 = [] := by
  decide

/-- C1 (corrected): on an authorized call with an id no stored record has,
`setAttendance` (and `setPayment`, once its payment-method check passes)
responds 200 with a null record body, and no registration record is
mutated. -/
theorem update_missing_id_amended (targetId : Nat) (present : Bool)
    (pm : Option (Option String)) (store : List Registration)
    (hmiss : store.all (fun r => r.id != targetId) = true) :
    ((putAttendance (some "true") targetId present store).1 =
        { status := 200, body := none } ∧
      (putAttendance (some "true") targetId present store).2 = store) ∧
    (validPaymentMethod pm = true →
      (putPayment (some "true") targetId pm store).1 =
          { status := 200, body := none } ∧
        (putPayment (some "true") targetId pm store).2 = store) := by
  have hfind : store.find? (fun r => r.id = targetId) = none := by
    rw [List.find?_eq_none]
    intro x hx
    have hne := List.all_eq_true.mp hmiss x hx
    simp at hne ⊢
    exact hne
  constructor
  · constructor <;> simp [putAttendance, checkAdminAuth, findByIdAndUpdate, hfind]
  · intro hpm
    constructor <;> simp [putPayment, checkAdminAuth, hpm, findByIdAndUpdate, hfind]

/-- Witness for C1's amended claim: id 2 is absent from the store
`[reg0]`. -/
theorem update_missing_id_amended_witness :
    ([reg0].all (fun r => r.id != 2) = true) ∧
    (putAttendance (some "true") 2 true [reg0]).1 = { status := 200, body := none } ∧
    (putAttendance (some "true") 2 true [reg0]).2 = [reg0] ∧
    (putPayment (some "true") 2 (some none) [reg0]).1 = { status := 200, body := none } ∧
    (putPayment (some "true") 2 (some none) [reg0]).2 = [reg0] := by
  refine ⟨by decide,
    (update_missing_id_amended 2 true (some none) [reg0] (by decide)).1.1,
    (update_missing_id_amended 2 true (some none) [reg0] (by decide)).1.2,
    ((update_missing_id_amended 2 true (some none) [reg0] (by decide)).2 (by decide)).1,
    ((update_missing_id_amended 2 true (some none) [reg0] (by decide)).2 (by decide)).2⟩

/-- C4 (confirmed): any request to the three admin endpoints whose
`admin-auth` header is not literally `true` is answered 401 and leaves the
stored collection untouched. -/
theorem admin_auth_gate (header : Option String) (targetId : Nat) (present : Bool)
    (pm : Option (Option String)) (store : List Registration)
    (h : header ≠ some "true") :
    getRegistrations header store = { status := 401, body := none } ∧
    (putAttendance header targetId present store).1 = { status := 401, body := none } ∧
    (putAttendance header targetId present store).2 = store ∧
    (putPayment header targetId pm store).1 = { status := 401, body := none } ∧
    (putPayment header targetId pm store).2 = store := by
  have hh : checkAdminAuth header = false := by
    simp [checkAdminAuth, h]
  refine ⟨?_, ?_, ?_, ?_, ?_⟩ <;> simp [getRegistrations, putAttendance, putPayment, hh]

/-- Witness for C4 at an absent header. -/
theorem admin_auth_gate_witness :
    getRegistrations none [reg0] = { status := 401, body := none } ∧
    (putAttendance none 1 true [reg0]).2 = [reg0] ∧
    (putPayment none 1 (some (some "cash")) [reg0]).2 = [reg0] := by
  refine ⟨(admin_auth_gate none 1 true (some (some "cash")) [reg0] (by decide)).1,
    (admin_auth_gate none 1 true (some (some "cash")) [reg0] (by decide)).2.2.1,
    (admin_auth_gate none 1 true (some (some "cash")) [reg0] (by decide)).2.2.2.2⟩

/-- C7 (confirmed): an authorized `setPayment` with a value outside
`{cash, online, null}` is answered 400 by the check that precedes the
storage lookup, and the store (hence the targeted record) is unchanged. -/
theorem payment_method_rejected (header : Option String) (targetId : Nat)
    (pm : Option (Option String)) (store : List Registration)
    (hauth : checkAdminAuth header = true) (hpm : validPaymentMethod pm = false) :
    (putPayment header targetId pm store).1 = { status := 400, body := none } ∧
    (putPayment header targetId pm store).2 = store := by
  constructor <;> simp [putPayment, hauth, hpm]

/-- Witness for C7 at the value `crypto` against a store containing the
targeted record. -/
theorem payment_method_rejected_witness :
    (putPayment (some "true") 1 (some (some "crypto")) [reg0]).1 =
      { status := 400, body := none } ∧
    (putPayment (some "true") 1 (some (some "crypto")) [reg0]).2 = [reg0] :=
  payment_method_rejected (some "true") 1 (some (some "crypto")) [reg0]
    (by decide) (by decide)

/-- C8 (counterexample): a file that is both of a disallowed type and over
5 MB fails with InvalidType, not TooLarge, because the type filter runs
first; so the claim that any larger payload fails with TooLarge is false
as stated. -/
theorem file_intake_counterexample :
    acceptFile { mimetype := "application/pdf", size := 6 * 1024 * 1024 } =
      Except.error FileError.invalidType ∧
    maxFileSize < 6 * 1024 * 1024 ∧
    (Except.error FileError.invalidType : Except FileError Unit) ≠
      Except.error FileError.tooLarge := by
  refine ⟨rfl, by decide, ?_⟩
  intro h
  simp at h

/-- C8 (corrected): `accept` succeeds exactly when the MIME type is allowed
and the size is at most 5 MB; a disallowed MIME type fails with
InvalidType, and an allowed MIME type over 5 MB fails with TooLarge. -/
theorem file_intake_amended (f : UploadFile) :
    (acceptFile f = Except.ok () ↔
      f.mimetype ∈ allowedMimeTypes ∧ f.size ≤ maxFileSize) ∧
    (f.mimetype ∉ allowedMimeTypes →
      acceptFile f = Except.error FileError.invalidType) ∧
    (f.mimetype ∈ allowedMimeTypes → maxFileSize < f.size →
      acceptFile f = Except.error FileError.tooLarge) := by
  by_cases h1 : f.mimetype ∈ allowedMimeTypes
  · by_cases h2 : maxFileSize < f.size
    · refine ⟨?_, fun hc => absurd h1 hc, fun _ _ => ?_⟩
      · simp [acceptFile, h1, h2]
      · simp [acceptFile, h1, h2]
    · refine ⟨?_, fun hc => absurd h1 hc, fun _ hc => absurd hc h2⟩
      simp [acceptFile, h1, h2]
      omega
  · refine ⟨?_, fun _ => by simp [acceptFile, h1], fun hc => absurd hc h1⟩
    simp [acceptFile, h1]

/-- Witness for C8's amended claim at three concrete files. -/
theorem file_intake_amended_witness :
    acceptFile { mimetype := "text/plain", size := 10 } =
      Except.error FileError.invalidType ∧
    acceptFile { mimetype := "image/png", size := 6 * 1024 * 1024 } =
      Except.error FileError.tooLarge ∧
    acceptFile { mimetype := "image/png", size := 1024 } = Except.ok () :=
  ⟨(file_intake_amended _).2.1 (by decide),
    (file_intake_amended _).2.2 (by decide) (by decide),
    (file_intake_amended _).1.mpr ⟨by decide, by decide⟩⟩

/-- C9 (confirmed, spec-modelled): `listDistinctEvents` returns a
duplicate-free list whose members are exactly the event names occurring in
some registration's `selectedEvents`, and the authorized endpoint returns
it with status 200. -/
theorem distinct_events_characterization (store : List Registration) :
    (listDistinctEvents store).Nodup ∧
    (∀ e, e ∈ listDistinctEvents store ↔ ∃ r ∈ store, e ∈ r.selectedEvents) ∧
    getAdminEvents (some "true") store =
      { status := 200, body := some (listDistinctEvents store) } := by
  refine ⟨List.nodup_dedup _, fun e => ?_, by simp [getAdminEvents, checkAdminAuth]⟩
  rw [listDistinctEvents, List.mem_dedup, List.mem_flatMap]

theorem docOfC_email (b : RegisterBody) (file : Option String)
    (events : Option JsValue) (newId now : Nat) (d : Registration)
    (h : docOfC b file events newId now = some d) :
    d.email = jsLower (jsTrim (b.email.getD "")) := by
  cases events with
  | none => exact absurd h (by simp [docOfC])
  | some ev =>
    dsimp only [docOfC] at h
    obtain ⟨evs, -, rfl⟩ := Option.map_eq_some'.mp h
    rfl

/-- C2 (counterexample): a submission whose normalized email equals the
persisted `reg0.email` but whose `name` is the empty string fails with
MissingFields, not DuplicateEmail; no record is created either way. -/
theorem duplicate_email_counterexample :
    jsLower (jsTrim (bodyDupNoName.email.getD "")) = reg0.email ∧
    (registerC bodyDupNoName none 2 5 [reg0]).1 = RegResponse.missingFields ["name"] ∧
    (registerC bodyDupNoName none 2 5 [reg0]).1 ≠ RegResponse.duplicateEmail ∧
    (registerC bodyDupNoName none 2 5 [reg0]).2 = [reg0] := by
  decide

/-- C2 (corrected): a submission whose email, trimmed and lower-cased,
already occurs in the store never adds a record; and when it also passes
the required-field, event and schema-validation checks the failure is
DuplicateEmail with status 409. -/
theorem register_duplicate_email (b : RegisterBody) (file : Option String)
    (newId now : Nat) (store : List Registration)
    (hdup : store.any (fun q => q.email = jsLower (jsTrim (b.email.getD ""))) = true) :
    (registerC b file newId now store).2 = store ∧
    (∀ d, docOfC b file (normalizeSelectedEvents b.selectedEvents) newId now = some d →
      (requiredFields.filter (fun f2 => strFalsy (bodyGet b f2))).isEmpty = true →
      (jsFalsyValue (normalizeSelectedEvents b.selectedEvents) ||
        jsLengthZero (normalizeSelectedEvents b.selectedEvents)) = false →
      validateC d = true →
      (registerC b file newId now store).1 = RegResponse.duplicateEmail ∧
      registerStatusC (registerC b file newId now store).1 = 409) := by
  by_cases hmiss : (requiredFields.filter (fun f2 => strFalsy (bodyGet b f2))).isEmpty
  · by_cases hev : (jsFalsyValue (normalizeSelectedEvents b.selectedEvents) ||
      jsLengthZero (normalizeSelectedEvents b.selectedEvents)) = true
    · constructor
      · simp [registerC, hmiss, hev]
      · intro d _ _ hev2 _
        rw [hev] at hev2
        cases hev2
    · cases hdoc : docOfC b file (normalizeSelectedEvents b.selectedEvents) newId now with
      | none =>
        constructor
        · simp [registerC, hmiss, hev, hdoc]
        · intro d hd
          cases hd
      | some r =>
        have hrmail : r.email = jsLower (jsTrim (b.email.getD "")) :=
          docOfC_email b file _ newId now r hdoc
        have hany : store.any (fun q => q.email = r.email) = true := by
          rw [hrmail]
          exact hdup
        by_cases hval : validateC r
        · constructor
          · simp [registerC, hmiss, hev, hdoc, hval, hany]
          · intro d hd _ _ _
            cases hd
            constructor <;> simp [registerC, hmiss, hev, hdoc, hval, hany, registerStatusC]
        · constructor
          · simp [registerC, hmiss, hev, hdoc, hval]
          · intro d hd _ _ hval2
            cases hd
            exact absurd hval2 (by simp [hval])
  · constructor
    · simp [registerC, hmiss]
    · intro d _ hm2 _ _
      exact absurd hm2 (by simp [hmiss])

/-- Witness for C2's amended claim: `bodyDup` passes every check and its
email duplicates `reg0`. -/
theorem register_duplicate_email_witness :
    ([reg0].any (fun q => q.email = jsLower (jsTrim (bodyDup.email.getD ""))) = true) ∧
    (registerC bodyDup none 2 5 [reg0]).2 = [reg0] ∧
    (registerC bodyDup none 2 5 [reg0]).1 = RegResponse.duplicateEmail := by
  refine ⟨by decide, (register_duplicate_email bodyDup none 2 5 [reg0] (by decide)).1, ?_⟩
  exact ((register_duplicate_email bodyDup none 2 5 [reg0] (by decide)).2 regDup
    (by decide) (by decide) (by decide) (by decide)).1

theorem append_single_injective {store : List Registration} {a r : Registration}
    (h : store ++ [a] = store ++ [r]) : a = r := by
  have h2 : [a] = [r] := by simpa using h
  simpa using h2

theorem store_ne_append {store : List Registration} {r : Registration}
    (h : store = store ++ [r]) : False := by
  have hlen := congrArg List.length h
  simp at hlen

/-- C3 (counterexample): through the `src/unnamed/part_000` register
handler, which spreads `...req.body` into the new document, a submission
carrying `isPresent: true` is created successfully with `isPresent = true`,
so the claim that every created record has `isPresent = false` regardless
of the payload is false. -/
theorem creation_mass_assignment_counterexample :
    (registerA bodyMassAssign none 1 0 []).1 = RegResponseA.created 1 ∧
    (registerA bodyMassAssign none 1 0 []).2.map (fun r => r.isPresent) = [true] := by
  decide

/-- C3 (corrected): records created by the `src/server.js` handler, which
picks its fields explicitly, always have `isPresent = false` and no
`paymentMethod`; under the `src/unnamed/part_000` handler this holds only
when the submitted body does not itself carry `isPresent` or
`paymentMethod`, since that handler spreads the body into the document. -/
theorem creation_status_fields_amended :
    (∀ b file newId now store r,
      (registerC b file newId now store).2 = store ++ [r] →
      r.isPresent = false ∧ r.paymentMethod = none) ∧
    (∀ b file newId now store r, b.isPresent = none → b.paymentMethod = none →
      (registerA b file newId now store).2 = store ++ [r] →
      r.isPresent = false ∧ r.paymentMethod = none) := by
  constructor
  · intro b file newId now store r happ
    by_cases hmiss : (requiredFields.filter (fun f2 => strFalsy (bodyGet b f2))).isEmpty
    · by_cases hev : (jsFalsyValue (normalizeSelectedEvents b.selectedEvents) ||
        jsLengthZero (normalizeSelectedEvents b.selectedEvents)) = true
      · rw [show (registerC b file newId now store).2 = store by
          simp [registerC, hmiss, hev]] at happ
        exact absurd happ store_ne_append
      · cases hdoc : docOfC b file (normalizeSelectedEvents b.selectedEvents) newId now with
        | none =>
          rw [show (registerC b file newId now store).2 = store by
            simp [registerC, hmiss, hev, hdoc]] at happ
          exact absurd happ store_ne_append
        | some d =>
          by_cases hval : validateC d
          · by_cases hany : store.any (fun q => q.email = d.email) = true
            · rw [show (registerC b file newId now store).2 = store by
                simp [registerC, hmiss, hev, hdoc, hval, hany]] at happ
              exact absurd happ store_ne_append
            · rw [show (registerC b file newId now store).2 = store ++ [d] by
                simp [registerC, hmiss, hev, hdoc, hval, hany]] at happ
              obtain rfl := append_single_injective happ.symm
              revert hdoc
              cases hevv : normalizeSelectedEvents b.selectedEvents with
              | none => simp [docOfC]
              | some ev =>
                dsimp only [docOfC]
                intro hsome
                obtain ⟨evs, -, rfl⟩ := Option.map_eq_some'.mp hsome
                exact ⟨rfl, rfl⟩
          · rw [show (registerC b file newId now store).2 = store by
              simp [registerC, hmiss, hev, hdoc, hval]] at happ
            exact absurd happ store_ne_append
    · rw [show (registerC b file newId now store).2 = store by
        simp [registerC, hmiss]] at happ
      exact absurd happ store_ne_append
  · intro b file newId now store r hbp hbm happ
    cases hdoc : docOfA b file (normalizeSelectedEvents b.selectedEvents) newId now with
    | none =>
      rw [show (registerA b file newId now store).2 = store by
        simp [registerA, hdoc]] at happ
      exact absurd happ store_ne_append
    | some d =>
      by_cases hval : validateA d
      · by_cases hany : store.any (fun q => q.email = d.email) = true
        · rw [show (registerA b file newId now store).2 = store by
            simp [registerA, hdoc, hval, hany]] at happ
          exact absurd happ store_ne_append
        · rw [show (registerA b file newId now store).2 = store ++ [d] by
            simp [registerA, hdoc, hval, hany]] at happ
          obtain rfl := append_single_injective happ.symm
          revert hdoc
          cases hevv : normalizeSelectedEvents b.selectedEvents with
          | none => simp [docOfA]
          | some ev =>
            dsimp only [docOfA]
            intro hsome
            obtain ⟨evs, -, rfl⟩ := Option.map_eq_some'.mp hsome
            exact ⟨by simp [hbp], by simp [hbm]⟩
      · rw [show (registerA b file newId now store).2 = store by
          simp [registerA, hdoc, hval]] at happ
        exact absurd happ store_ne_append

/-- Witness for C3's amended claim: the record `registerC` persists for
`goodBody` has `isPresent = false` and no payment method. -/
theorem creation_status_fields_amended_witness :
    ((registerC goodBody none 1 0 []).2 = [] ++ [regGood]) ∧
    regGood.isPresent = false ∧ regGood.paymentMethod = none := by
  refine ⟨by decide, ?_⟩
  exact creation_status_fields_amended.1 goodBody none 1 0 [] regGood (by decide)

/-- C10 (confirmed): a required scalar field submitted as the empty string
is falsy, exactly like an absent field, so `registerC` fails with
MissingFields naming that field and stores nothing. -/
theorem empty_string_field_missing (b : RegisterBody) (file : Option String)
    (newId now : Nat) (store : List Registration) (f2 : String)
    (hf : f2 ∈ requiredFields) (he : bodyGet b f2 = some "") :
    ∃ ms, (registerC b file newId now store).1 = RegResponse.missingFields ms ∧
      f2 ∈ ms ∧ (registerC b file newId now store).2 = store := by
  have hmem : f2 ∈ requiredFields.filter (fun g => strFalsy (bodyGet b g)) :=
    List.mem_filter.mpr ⟨hf, by simp [strFalsy, he]⟩
  have hne : (requiredFields.filter (fun g => strFalsy (bodyGet b g))).isEmpty = false := by
    cases hl : requiredFields.filter (fun g => strFalsy (bodyGet b g)) with
    | nil => rw [hl] at hmem; cases hmem
    | cons a as => rfl
  refine ⟨requiredFields.filter (fun g => strFalsy (bodyGet b g)), ?_, hmem, ?_⟩ <;>
    simp [registerC, hne]

/-- Witness for C10: `bodyDupNoName` carries `name` as the empty string. -/
theorem empty_string_field_missing_witness :
    ∃ ms, (registerC bodyDupNoName none 1 0 []).1 = RegResponse.missingFields ms ∧
      "name" ∈ ms ∧ (registerC bodyDupNoName none 1 0 []).2 = [] :=
  empty_string_field_missing bodyDupNoName none 1 0 [] "name" (by decide) (by decide)
